import Mathlib

/-!
Shallow embedding of the cosmos-casbin-adapter (adapter.go).

The adapter maps Casbin policy rules onto documents of a CosmosDB
collection.  The CosmosDB client itself is external: its effects are
modelled by explicit state passing (the collection is the list of stored
documents; one page-concatenated read stands for the continuation-token
loop) and by environments that fix the outcome of each client call
(`SaveEnv`, `RemoveEnv`, provisioning read results).
-/

namespace CosmosCasbin

/-- Embeds `CasbinRule` (adapter.go): one stored rule document with
identity `id`, the policy-type tag `pType` and six value fields. -/
structure CasbinRule where
  ID : String
  PType : String
  V0 : String
  V1 : String
  V2 : String
  V3 : String
  V4 : String
  V5 : String
  deriving Repr, DecidableEq

/-- Field access by position: `fieldV r i` is the document field `v<i>`.
Positions past `v5` do not exist on the document; the adapter only ever
serialises `v0..v5`, all present (no omitempty), so a missing position is
read as the zero value. -/
def CasbinRule.fieldV (r : CasbinRule) : Nat → String
  | 0 => r.V0
  | 1 => r.V1
  | 2 => r.V2
  | 3 => r.V3
  | 4 => r.V4
  | 5 => r.V5
  | _ + 6 => ""

/-- Embeds `savePolicyLine` (adapter.go): each `if len(rule) > i` guard
copies `rule[i]` into `v<i>`; fields with no corresponding tuple entry keep
the zero value `""`. -/
def savePolicyLine (ptype : String) (rule : List String) : CasbinRule :=
  { ID := ""
    PType := ptype
    V0 := if rule.length > 0 then rule.getD 0 "" else ""
    V1 := if rule.length > 1 then rule.getD 1 "" else ""
    V2 := if rule.length > 2 then rule.getD 2 "" else ""
    V3 := if rule.length > 3 then rule.getD 3 "" else ""
    V4 := if rule.length > 4 then rule.getD 4 "" else ""
    V5 := if rule.length > 5 then rule.getD 5 "" else "" }

/-- The token list `loadPolicyLine` accumulates: the chain of
`if line.Vi != "" { append } else { goto LineEnd }` blocks, i.e. the
longest all-non-empty prefix of the stored fields. -/
def ruleTokens (line : CasbinRule) : List String :=
  if line.V0 = "" then [] else
  line.V0 :: (if line.V1 = "" then [] else
  line.V1 :: (if line.V2 = "" then [] else
  line.V2 :: (if line.V3 = "" then [] else
  line.V3 :: (if line.V4 = "" then [] else
  line.V4 :: (if line.V5 = "" then [] else [line.V5])))))

/-- Embeds `loadPolicyLine` (adapter.go): `sec := key[:1]` indexes the
first byte of `pType` with no guard, so the Go code panics when `pType` is
empty; the total embedding returns `none` exactly there.  On success it
yields the `(sec, key, tokens)` triple appended to
`model[sec][key].Policy`. -/
def loadPolicyLine (line : CasbinRule) : Option (String × String × List String) :=
  let key := line.PType
  if key = "" then none
  else some (key.take 1, key, ruleTokens line)

/-- Converting every fetched document, as the `for _, line := range lines`
loop of `LoadFilteredPolicy` does; any document with an empty `pType`
aborts the whole load (the panic of `loadPolicyLine`). -/
def loadLines : List CasbinRule → Option (List (String × String × List String))
  | [] => some []
  | l :: ls =>
    match loadPolicyLine l with
    | none => none
    | some t =>
      match loadLines ls with
      | none => none
      | some ts => some (t :: ts)

/-- The adapter's mutable state: the `filtered` flag and the contents of
the backing collection (a deleted collection is identified with an empty
one). -/
structure AdapterState where
  filtered : Bool
  coll : List CasbinRule
  deriving Repr, DecidableEq

/-- Embeds `LoadFilteredPolicy` (adapter.go).  A `none` filter is the
cross-partition `ReadAll` of every document (the continuation loop
concatenates the pages; the collection list is that concatenation) and
sets `filtered := false`; a `some` filter runs the opaque query, modelled
as the function it induces on the stored documents, and sets
`filtered := true`.  The converted `(sec, key, tokens)` triples are the
appends made to the caller's model. -/
def LoadFilteredPolicy (a : AdapterState)
    (filter : Option (List CasbinRule → List CasbinRule)) :
    Option (List (String × String × List String)) × AdapterState :=
  match filter with
  | none => (loadLines a.coll, { a with filtered := false })
  | some f => (loadLines (f a.coll), { a with filtered := true })

/-- Embeds `LoadPolicy` (adapter.go): `return a.LoadFilteredPolicy(model, nil)`. -/
def LoadPolicy (a : AdapterState) :
    Option (List (String × String × List String)) × AdapterState :=
  LoadFilteredPolicy a none

/-- Modelled from the spec: "Load (unfiltered): retrieves every document
in the collection across all partitions ... and converts each into a
Rule ... Marks the adapter's filtered flag false."  Written from the
spec's words, to be compared with `LoadPolicy`. -/
def unfilteredLoadSpec (a : AdapterState) :
    Option (List (String × String × List String)) × AdapterState :=
  (loadLines a.coll, { a with filtered := false })

/-- Embeds `IsFiltered` (adapter.go). -/
def IsFiltered (a : AdapterState) : Bool :=
  a.filtered

/-- Embeds a Casbin `Assertion` as far as the adapter touches it: its
`Policy` slice of rule tuples. -/
structure Assertion where
  Policy : List (List String)
  deriving Repr, DecidableEq

/-- The caller's model as the adapter reads it: the `"p"` and `"g"`
sections, each a finite map from policy-type key to assertion (Go map
iteration order is unspecified; the association list fixes one). -/
structure Model where
  p : List (String × Assertion)
  g : List (String × Assertion)
  deriving Repr, DecidableEq

/-- The documents one section contributes in `SavePolicy`'s
`for ptype, ast := range model[sec] { for _, rule := range ast.Policy }`
double loop. -/
def sectionLines (sec : List (String × Assertion)) : List CasbinRule :=
  sec.flatMap fun pa => pa.2.Policy.map (savePolicyLine pa.1)

/-- All documents `SavePolicy` inserts: the `"p"` section's lines followed
by the `"g"` section's. -/
def modelLines (m : Model) : List CasbinRule :=
  sectionLines m.p ++ sectionLines m.g

/-- The `(ptype, rule)` pairs a section holds, in the same order as
`sectionLines`. -/
def sectionPairs (sec : List (String × Assertion)) : List (String × List String) :=
  sec.flatMap fun pa => pa.2.Policy.map fun rule => (pa.1, rule)

/-- The `(ptype, rule)` pairs of the whole model. -/
def modelPairs (m : Model) : List (String × List String) :=
  sectionPairs m.p ++ sectionPairs m.g

/-- Outcomes of the client calls `SavePolicy` makes: the collection
`Delete`, the collection `Create` after it, and each document `Create`
(indexed by position in the insertion loop).  `none` is success. -/
structure SaveEnv where
  deleteCollErr : Option String
  createCollErr : Option String
  createDocErr : Nat → Option String

/-- Embeds `dropCollection` (adapter.go): `a.collection.Delete()` then
`a.db.Collections().Create(...)`; a failed delete leaves the documents, a
successful delete empties the collection before the recreate's outcome is
reported. -/
def dropCollection (env : SaveEnv) (coll : List CasbinRule) :
    Except String Unit × List CasbinRule :=
  match env.deleteCollErr with
  | some e => (.error e, coll)
  | none =>
    match env.createCollErr with
    | some e => (.error e, [])
    | none => (.ok (), [])

/-- The `for _, line := range lines { Documents().Create(&line, ...) }`
loop: documents are appended one at a time; the first failing create
returns its error with the documents inserted so far kept. -/
def insertLoop (err : Nat → Option String) :
    Nat → List CasbinRule → List CasbinRule → Except String Unit × List CasbinRule
  | _, coll, [] => (.ok (), coll)
  | i, coll, l :: ls =>
    match err i with
    | some e => (.error e, coll)
    | none => insertLoop err (i + 1) (coll ++ [l]) ls

/-- Embeds `SavePolicy` (adapter.go): rejects a filtered state, otherwise
drops and recreates the collection, builds the lines of the `"p"` then the
`"g"` section and inserts them one by one, each partitioned by its
`pType`. -/
def SavePolicy (env : SaveEnv) (a : AdapterState) (m : Model) :
    Except String Unit × AdapterState :=
  if a.filtered then (.error "cannot save a filtered policy", a)
  else
    match dropCollection env a.coll with
    | (.error e, c) => (.error e, { a with coll := c })
    | (.ok _, c) =>
      let out := insertLoop env.createDocErr 0 c (modelLines m)
      (out.1, { a with coll := out.2 })

/-- Embeds `AddPolicy` (adapter.go): one `savePolicyLine` conversion and
one document `Create` with partition key `line.PType`; `createErr` is that
call's outcome. -/
def AddPolicy (createErr : Option String) (a : AdapterState)
    (sec ptype : String) (rule : List String) :
    Except String Unit × AdapterState :=
  match createErr with
  | some e => (.error e, a)
  | none => (.ok (), { a with coll := a.coll ++ [savePolicyLine ptype rule] })

/-- Outcomes of the client calls the two remove operations make: the
`Query` and each `Document(id).Delete` (indexed by position in the delete
loop). -/
structure RemoveEnv where
  queryErr : Option String
  deleteErr : Nat → Option String

/-- Whether the deletes issued for document `p` hit document `d`:
`a.collection.Document(policy.ID).Delete(cosmos.PartitionKey(policy.PType))`
deletes the document with that id inside that partition. -/
def keyEq (d p : CasbinRule) : Bool :=
  d.ID == p.ID && d.PType == p.PType

/-- The `for _, policy := range policies { Document(policy.ID).Delete }`
loop shared by `RemovePolicy` and `RemoveFilteredPolicy`: deletes the
queried documents one at a time; the first failing delete returns its
error, leaving every later queried document undeleted. -/
def deleteLoop (err : Nat → Option String) :
    Nat → List CasbinRule → List CasbinRule → Except String Unit × List CasbinRule
  | _, coll, [] => (.ok (), coll)
  | i, coll, p :: ps =>
    match err i with
    | some e => (.error e, coll)
    | none => deleteLoop err (i + 1) (coll.filter fun d => !keyEq d p) ps

/-- The query `RemovePolicy` builds: `root.pType = @pType` plus one clause
`root.v<i> = @v<i>` per supplied value, in order; evaluated against a
stored document (the `PartitionKey(ptype)` scope is subsumed by the
`pType` clause). -/
def removeMatch (ptype : String) (rule : List String) (d : CasbinRule) : Bool :=
  d.PType == ptype && (List.range rule.length).all fun i => d.fieldV i == rule.getD i ""

/-- Embeds `RemovePolicy` (adapter.go): query the matching documents of
the `ptype` partition, then delete each by id. -/
def RemovePolicy (env : RemoveEnv) (a : AdapterState)
    (ptype : String) (rule : List String) :
    Except String Unit × AdapterState :=
  match env.queryErr with
  | some e => (.error e, a)
  | none =>
    let policies := a.coll.filter (removeMatch ptype rule)
    let out := deleteLoop env.deleteErr 0 a.coll policies
    (out.1, { a with coll := out.2 })

/-- The selector `RemoveFilteredPolicy` builds: for each field position
`i` in `0..5`, the guard `fieldIndex <= i && i < fieldIndex+len(fieldValues)`
and the non-emptiness test on `fieldValues[i-fieldIndex]` decide whether
`v<i>` gets an equality clause (`fieldIndex` is a Go `int`, possibly
negative). -/
def selector (fieldIndex : Int) (fieldValues : List String) :
    List (Nat × String) :=
  (List.range 6).filterMap fun (i : Nat) =>
    if fieldIndex ≤ (i : Int) ∧ (i : Int) < fieldIndex + fieldValues.length then
      if fieldValues.getD ((i : Int) - fieldIndex).toNat "" ≠ "" then
        some (i, fieldValues.getD ((i : Int) - fieldIndex).toNat "")
      else none
    else none

/-- The query `RemoveFilteredPolicy` issues: `root.pType = @pType` plus
the selector's equality clauses (a conjunction, so the Go map's iteration
order over the selector is irrelevant), evaluated against a stored
document. -/
def filteredMatch (ptype : String) (fieldIndex : Int) (fieldValues : List String)
    (d : CasbinRule) : Bool :=
  d.PType == ptype && (selector fieldIndex fieldValues).all fun iv => d.fieldV iv.1 == iv.2

/-- Embeds `RemoveFilteredPolicy` (adapter.go): build the selector, query
the `ptype` partition with it, delete each match by id. -/
def RemoveFilteredPolicy (env : RemoveEnv) (a : AdapterState)
    (ptype : String) (fieldIndex : Int) (fieldValues : List String) :
    Except String Unit × AdapterState :=
  match env.queryErr with
  | some e => (.error e, a)
  | none =>
    let policies := a.coll.filter (filteredMatch ptype fieldIndex fieldValues)
    let out := deleteLoop env.deleteErr 0 a.coll policies
    (out.1, { a with coll := out.2 })

/-- CosmosDB enforces a unique `id` inside each logical partition: no two
stored documents share both `id` and `pType`.  The delete-by-id loops are
exact only under this store invariant. -/
abbrev DistinctKeys (coll : List CasbinRule) : Prop :=
  coll.Pairwise fun d e => keyEq d e = false

/-- The result of a cosmos `Read()` existence check as the provisioning
code inspects it: success, a `*cosmos.Error` that is not-found, a
`*cosmos.Error` that is something else, or an error of another type
(each failure carrying its message). -/
inductive CosmosReadResult
  | ok
  | cosmosNotFound (msg : String)
  | cosmosOther (msg : String)
  | plainError (msg : String)
  deriving Repr, DecidableEq

/-- Whether a provisioning step lets construction proceed or halts the
process through `log.Fatalf`. -/
inductive ProvisionOutcome
  | ok
  | fatal (msg : String)
  deriving Repr, DecidableEq

/-- Embeds `createDatabaseIfNotExist` (adapter.go).  In the not-found
branch the code issues `a.client.Databases().Create(a.databaseName)` but
DISCARDS its result; the `if err != nil` that follows re-tests the
shadowed `err` from `db.Read()` — still the non-nil not-found error — so
this branch always reaches `log.Fatalf`, with the read error's message.
`createRes` is the discarded outcome of the create call. -/
def createDatabaseIfNotExist (readRes : CosmosReadResult)
    (createRes : Option String) : ProvisionOutcome :=
  match readRes with
  | .ok => .ok
  | .cosmosNotFound msg =>
    let _ := createRes
    .fatal ("Creating cosmos database caused error: " ++ msg)
  | .cosmosOther msg => .fatal ("Reading cosmos database caused error: " ++ msg)
  | .plainError msg => .fatal ("Reading cosmos database caused error: " ++ msg)

/-- Embeds `createCollectionIfNotExist` (adapter.go): in the not-found
branch the collection create's own error (`_, err := ...Create(collDef)`)
is what decides between proceeding and `log.Fatalf`. -/
def createCollectionIfNotExist (readRes : CosmosReadResult)
    (createRes : Option String) : ProvisionOutcome :=
  match readRes with
  | .ok => .ok
  | .cosmosNotFound _ =>
    match createRes with
    | some m => .fatal ("Creating cosmos collection caused error: " ++ m)
    | none => .ok
  | .cosmosOther msg => .fatal ("Reading cosmos collection caused error: " ++ msg)
  | .plainError msg => .fatal ("Reading cosmos collection caused error: " ++ msg)

/-! ## Helper lemmas -/

theorem savePolicyLine_PType (ptype : String) (rule : List String) :
    (savePolicyLine ptype rule).PType = ptype := rfl

theorem savePolicyLine_fieldV (ptype : String) (rule : List String) (i : Nat) :
    (savePolicyLine ptype rule).fieldV i =
      if i < min rule.length 6 then rule.getD i "" else "" := by
  match i with
  | 0 | 1 | 2 | 3 | 4 | 5 =>
    simp only [savePolicyLine, CasbinRule.fieldV, gt_iff_lt]
    split <;> split <;> first | rfl | omega
  | n + 6 =>
    simp only [CasbinRule.fieldV]
    rw [if_neg (by omega)]

theorem ruleTokens_savePolicyLine (ptype : String) (rule : List String)
    (hne : ∀ v ∈ rule, v ≠ "") (hlen : rule.length ≤ 6) :
    ruleTokens (savePolicyLine ptype rule) = rule := by
  rcases rule with _ | ⟨a, _ | ⟨b, _ | ⟨c, _ | ⟨d, _ | ⟨e, _ | ⟨f, _ | ⟨g, rest⟩⟩⟩⟩⟩⟩⟩
  · rfl
  · have ha := hne a (by simp)
    simp [ruleTokens, savePolicyLine, ha]
  · have ha := hne a (by simp)
    have hb := hne b (by simp)
    simp [ruleTokens, savePolicyLine, ha, hb]
  · have ha := hne a (by simp)
    have hb := hne b (by simp)
    have hc := hne c (by simp)
    simp [ruleTokens, savePolicyLine, ha, hb, hc]
  · have ha := hne a (by simp)
    have hb := hne b (by simp)
    have hc := hne c (by simp)
    have hd := hne d (by simp)
    simp [ruleTokens, savePolicyLine, ha, hb, hc, hd]
  · have ha := hne a (by simp)
    have hb := hne b (by simp)
    have hc := hne c (by simp)
    have hd := hne d (by simp)
    have he := hne e (by simp)
    simp [ruleTokens, savePolicyLine, ha, hb, hc, hd, he]
  · have ha := hne a (by simp)
    have hb := hne b (by simp)
    have hc := hne c (by simp)
    have hd := hne d (by simp)
    have he := hne e (by simp)
    have hf := hne f (by simp)
    simp [ruleTokens, savePolicyLine, ha, hb, hc, hd, he, hf]
  · simp at hlen

theorem loadPolicyLine_savePolicyLine (ptype : String) (rule : List String)
    (hp : ptype ≠ "") (hne : ∀ v ∈ rule, v ≠ "") (hlen : rule.length ≤ 6) :
    loadPolicyLine (savePolicyLine ptype rule) =
      some (ptype.take 1, ptype, rule) := by
  simp [loadPolicyLine, savePolicyLine_PType, hp,
    ruleTokens_savePolicyLine ptype rule hne hlen]

theorem loadLines_eq_map (lines : List CasbinRule)
    (h : ∀ line ∈ lines, line.PType ≠ "") :
    loadLines lines =
      some (lines.map fun line => (line.PType.take 1, line.PType, ruleTokens line)) := by
  induction lines with
  | nil => rfl
  | cons l ls ih =>
    have hl : l.PType ≠ "" := h l (by simp)
    have hrest : ∀ line ∈ ls, line.PType ≠ "" := fun line hm => h line (by simp [hm])
    simp [loadLines, loadPolicyLine, hl, ih hrest]

theorem loadLines_isSome_iff (lines : List CasbinRule) :
    (loadLines lines).isSome ↔ ∀ line ∈ lines, line.PType ≠ "" := by
  induction lines with
  | nil => simp [loadLines]
  | cons l ls ih =>
    by_cases hl : l.PType = ""
    · simp [loadLines, loadPolicyLine, hl]
    · simp only [loadLines, loadPolicyLine, if_neg hl]
      rcases h : loadLines ls with _ | ts <;>
        simp [h, hl, ← ih, List.forall_mem_cons]

theorem insertLoop_ok (err : Nat → Option String) (ls : List CasbinRule) :
    ∀ (i : Nat) (coll : List CasbinRule),
      (∀ j, j < ls.length → err (i + j) = none) →
      insertLoop err i coll ls = (.ok (), coll ++ ls) := by
  induction ls with
  | nil => intro i coll _; simp [insertLoop]
  | cons l ls ih =>
    intro i coll h
    have h0 : err i = none := by simpa using h 0 (by simp)
    have hrest : ∀ j, j < ls.length → err (i + 1 + j) = none := by
      intro j hj
      have := h (j + 1) (by simpa using Nat.succ_lt_succ hj)
      simpa [Nat.add_comm, Nat.add_left_comm, Nat.add_assoc] using this
    simp [insertLoop, h0, ih (i + 1) (coll ++ [l]) hrest]

theorem insertLoop_err (err : Nat → Option String) (e : String)
    (ls : List CasbinRule) :
    ∀ (k i : Nat) (coll : List CasbinRule),
      (∀ j, j < k → err (i + j) = none) → err (i + k) = some e →
      k < ls.length →
      insertLoop err i coll ls = (.error e, coll ++ ls.take k) := by
  induction ls with
  | nil => intro k i coll _ _ hk; simp at hk
  | cons l ls ih =>
    intro k i coll hpre hk hklen
    match k with
    | 0 =>
      have h0 : err i = some e := by simpa using hk
      simp [insertLoop, h0]
    | k + 1 =>
      have h0 : err i = none := by simpa using hpre 0 (by omega)
      have hpre' : ∀ j, j < k → err (i + 1 + j) = none := by
        intro j hj
        have := hpre (j + 1) (by omega)
        simpa [Nat.add_comm, Nat.add_left_comm, Nat.add_assoc] using this
      have hk' : err (i + 1 + k) = some e := by
        have : i + 1 + k = i + (k + 1) := by omega
        rw [this]; exact hk
      have hlen' : k < ls.length := by simpa using Nat.lt_of_succ_lt_succ hklen
      simp [insertLoop, h0, ih k (i + 1) (coll ++ [l]) hpre' hk' hlen']

theorem deleteLoop_ok (err : Nat → Option String) (ps : List CasbinRule) :
    ∀ (i : Nat) (coll : List CasbinRule),
      (∀ j, j < ps.length → err (i + j) = none) →
      deleteLoop err i coll ps =
        (.ok (), coll.filter fun d => ps.all fun p => !keyEq d p) := by
  induction ps with
  | nil => intro i coll _; simp [deleteLoop]
  | cons p ps ih =>
    intro i coll h
    have h0 : err i = none := by simpa using h 0 (by simp)
    have hrest : ∀ j, j < ps.length → err (i + 1 + j) = none := by
      intro j hj
      have := h (j + 1) (by simpa using Nat.succ_lt_succ hj)
      simpa [Nat.add_comm, Nat.add_left_comm, Nat.add_assoc] using this
    simp only [deleteLoop, h0, ih (i + 1) _ hrest, List.filter_filter,
      List.all_cons, Bool.and_comm]

theorem deleteLoop_err (err : Nat → Option String) (e : String)
    (ps : List CasbinRule) :
    ∀ (k i : Nat) (coll : List CasbinRule),
      (∀ j, j < k → err (i + j) = none) → err (i + k) = some e →
      k < ps.length →
      deleteLoop err i coll ps =
        (.error e, coll.filter fun d => (ps.take k).all fun p => !keyEq d p) := by
  induction ps with
  | nil => intro k i coll _ _ hk; simp at hk
  | cons p ps ih =>
    intro k i coll hpre hk hklen
    match k with
    | 0 =>
      have h0 : err i = some e := by simpa using hk
      simp [deleteLoop, h0]
    | k + 1 =>
      have h0 : err i = none := by simpa using hpre 0 (by omega)
      have hpre' : ∀ j, j < k → err (i + 1 + j) = none := by
        intro j hj
        have := hpre (j + 1) (by omega)
        simpa [Nat.add_comm, Nat.add_left_comm, Nat.add_assoc] using this
      have hk' : err (i + 1 + k) = some e := by
        have : i + 1 + k = i + (k + 1) := by omega
        rw [this]; exact hk
      have hlen' : k < ps.length := by simpa using Nat.lt_of_succ_lt_succ hklen
      simp only [deleteLoop, h0, ih k (i + 1) _ hpre' hk' hlen',
        List.take_succ_cons, List.filter_filter, List.all_cons, Bool.and_comm]

theorem keyEq_symm_false (d p : CasbinRule) (h : keyEq d p = false) :
    keyEq p d = false := by
  simp only [keyEq, Bool.and_eq_false_iff, beq_eq_false_iff_ne, ne_eq] at h ⊢
  tauto

theorem keyEq_self (d : CasbinRule) : keyEq d d = true := by
  simp [keyEq]

/-- With pairwise-distinct `(id, pType)` keys, deleting the documents the
query matched removes exactly the matching documents. -/
theorem filter_not_matched (coll : List CasbinRule) (mfn : CasbinRule → Bool)
    (hkeys : DistinctKeys coll) :
    (coll.filter fun d => (coll.filter mfn).all fun p => !keyEq d p) =
      coll.filter fun d => !mfn d := by
  apply List.filter_congr
  intro d hd
  by_cases hm : mfn d = true
  · have hdm : d ∈ coll.filter mfn := List.mem_filter.2 ⟨hd, hm⟩
    simp only [hm, Bool.not_true]
    rw [List.all_eq_false.2 ⟨d, hdm, by simp [keyEq_self]⟩]
  · have hm' : mfn d = false := by simpa using hm
    simp only [hm', Bool.not_false]
    rw [List.all_eq_true]
    intro p hp
    have hpc := List.mem_filter.1 hp
    have hsymm : Symmetric fun d e : CasbinRule => keyEq d e = false := by
      intro x y hxy; exact keyEq_symm_false x y hxy
    by_cases hdp : d = p
    · exact absurd (hdp ▸ hpc.2) (by simp [hm'])
    · have := List.Pairwise.forall hsymm hkeys hd hpc.1 hdp
      simp [this]

theorem sectionLines_eq_map (sec : List (String × Assertion)) :
    sectionLines sec = (sectionPairs sec).map fun pr => savePolicyLine pr.1 pr.2 := by
  simp only [sectionLines, sectionPairs, List.map_flatMap, List.map_map]
  rfl

theorem modelLines_eq_map (m : Model) :
    modelLines m = (modelPairs m).map fun pr => savePolicyLine pr.1 pr.2 := by
  simp [modelLines, modelPairs, sectionLines_eq_map]

theorem map_pair_roundtrip (l : List (String × List String))
    (h : ∀ pr ∈ l, pr.1 ≠ "" ∧ (∀ v ∈ pr.2, v ≠ "") ∧ pr.2.length ≤ 6) :
    ((l.map fun pr => savePolicyLine pr.1 pr.2).map
        (fun line => (line.PType.take 1, line.PType, ruleTokens line))).map
      (fun t => (t.2.1, t.2.2)) = l := by
  induction l with
  | nil => rfl
  | cons pr l ih =>
    obtain ⟨h1, h2, h3⟩ := h pr (by simp)
    simp only [List.map_cons]
    rw [ih (fun q hq => h q (by simp [hq]))]
    simp [savePolicyLine_PType, ruleTokens_savePolicyLine pr.1 pr.2 h2 h3]

theorem savePolicy_ok_helper (env : SaveEnv) (a : AdapterState) (m : Model)
    (hf : a.filtered = false) (hd : env.deleteCollErr = none)
    (hc : env.createCollErr = none)
    (hins : ∀ i, i < (modelLines m).length → env.createDocErr i = none) :
    SavePolicy env a m = (.ok (), { a with coll := modelLines m }) := by
  have hloop := insertLoop_ok env.createDocErr (modelLines m) 0 []
    (fun j hj => by simpa using hins j hj)
  simp [SavePolicy, hf, dropCollection, hd, hc, hloop]

theorem savePolicy_err_helper (env : SaveEnv) (a : AdapterState) (m : Model)
    (k : Nat) (e : String)
    (hf : a.filtered = false) (hd : env.deleteCollErr = none)
    (hc : env.createCollErr = none)
    (hpre : ∀ j, j < k → env.createDocErr j = none)
    (hk : env.createDocErr k = some e) (hklen : k < (modelLines m).length) :
    SavePolicy env a m = (.error e, { a with coll := (modelLines m).take k }) := by
  have hloop := insertLoop_err env.createDocErr e (modelLines m) k 0 []
    (fun j hj => by simpa using hpre j hj) (by simpa using hk) hklen
  simp [SavePolicy, hf, dropCollection, hd, hc, hloop]

/-! ## Claim theorems -/

/-- Claim C1: the claim says a not-found read during provisioning is
recoverable — the missing database/collection is created and construction
proceeds — while every other read error is fatal.  The collection half
behaves that way, but `createDatabaseIfNotExist` halts fatally on the
not-found read as well (the create's result is discarded and the shadowed
read error is re-tested), so the database half of the claim fails on the
code. -/
theorem createDatabaseIfNotExist_notFound_fatal :
    (∀ (msg : String) (createRes : Option String),
        createDatabaseIfNotExist (.cosmosNotFound msg) createRes =
          .fatal ("Creating cosmos database caused error: " ++ msg))
    ∧ (∀ msg : String, createCollectionIfNotExist (.cosmosNotFound msg) none = .ok)
    ∧ (∀ (msg : String) (createRes : Option String),
        createCollectionIfNotExist (.cosmosOther msg) createRes =
          .fatal ("Reading cosmos collection caused error: " ++ msg))
    ∧ createDatabaseIfNotExist .ok none = .ok :=
  ⟨fun _ _ => rfl, fun _ => rfl, fun _ _ => rfl, rfl⟩

/-- Claim C3: whenever the filtered flag is true, `SavePolicy` returns
the dedicated "cannot save a filtered policy" error, performs no writes,
and leaves the adapter state unchanged — for every environment of client
outcomes and every model. -/
theorem savePolicy_filtered_rejected (env : SaveEnv) (a : AdapterState)
    (m : Model) (h : a.filtered = true) :
    SavePolicy env a m = (.error "cannot save a filtered policy", a) := by
  simp [SavePolicy, h]

theorem savePolicy_filtered_rejected_witness :
    SavePolicy ⟨none, none, fun _ => none⟩
        ⟨true, [⟨"1", "p", "alice", "data1", "read", "", "", ""⟩]⟩
        ⟨[("p", ⟨[["bob", "data2", "write"]]⟩)], []⟩ =
      (.error "cannot save a filtered policy",
        ⟨true, [⟨"1", "p", "alice", "data1", "read", "", "", ""⟩]⟩) :=
  savePolicy_filtered_rejected _ _ _ rfl

/-- Claim C4: a rule tuple converted to a stored document (by
`savePolicyLine`, the conversion both `SavePolicy` and `AddPolicy` use)
populates exactly the fields `v0..v(n-1)` from the tuple and leaves every
later field empty; in particular a tuple `["a", "b"]` never puts a value
in `v2` or beyond. -/
theorem savePolicyLine_contiguous_fields (ptype : String) (rule : List String) :
    (∀ i : Nat, (savePolicyLine ptype rule).fieldV i =
        if i < min rule.length 6 then rule.getD i "" else "")
    ∧ (∀ (a : AdapterState) (sec : String),
        (AddPolicy none a sec ptype rule).2.coll =
          a.coll ++ [savePolicyLine ptype rule])
    ∧ (savePolicyLine ptype ["a", "b"]).V2 = ""
    ∧ (savePolicyLine ptype ["a", "b"]).V3 = ""
    ∧ (savePolicyLine ptype ["a", "b"]).V4 = ""
    ∧ (savePolicyLine ptype ["a", "b"]).V5 = "" :=
  ⟨savePolicyLine_fieldV ptype rule, fun _ _ => rfl, rfl, rfl, rfl, rfl⟩

/-- Claim C8: `LoadPolicy` is exactly `LoadFilteredPolicy` with a nil
filter, which performs the unfiltered full scan and clears the filtered
flag (it equals the spec's unfiltered load), while every non-nil filter
load sets the flag. -/
theorem loadPolicy_is_nil_filter_load (a : AdapterState) :
    LoadPolicy a = LoadFilteredPolicy a none
    ∧ LoadPolicy a = unfilteredLoadSpec a
    ∧ (LoadPolicy a).2.filtered = false
    ∧ ∀ f : List CasbinRule → List CasbinRule,
        (LoadFilteredPolicy a (some f)).2.filtered = true :=
  ⟨rfl, rfl, rfl, fun _ => rfl⟩

/-- Claim C10: `loadPolicyLine` is total only on documents with a
non-empty `pType` (the unguarded `key[:1]` slice): the error branch of the
embedding is hit exactly when `pType` is empty, a whole load succeeds
exactly when every fetched document has a non-empty `pType`, and both
`LoadPolicy` and `LoadFilteredPolicy` run the conversion on every fetched
document. -/
theorem loadPolicyLine_needs_nonempty_ptype :
    (∀ line : CasbinRule, loadPolicyLine line = none ↔ line.PType = "")
    ∧ (∀ lines : List CasbinRule,
        (loadLines lines).isSome ↔ ∀ line ∈ lines, line.PType ≠ "")
    ∧ (∀ a : AdapterState, (LoadPolicy a).1 = loadLines a.coll)
    ∧ (∀ (a : AdapterState) (f : List CasbinRule → List CasbinRule),
        (LoadFilteredPolicy a (some f)).1 = loadLines (f a.coll)) := by
  refine ⟨?_, loadLines_isSome_iff, fun _ => rfl, fun _ _ => rfl⟩
  intro line
  by_cases h : line.PType = "" <;> simp [loadPolicyLine, h]

/-- Claim C7: with the filtered flag false, `SavePolicy` drops and
recreates the collection (all prior rules are gone), converts the rules of
the `"p"` and `"g"` sections into documents and inserts them one at a
time; if every insert succeeds the collection holds exactly those
documents, and the first insert failure aborts the save with the
underlying error verbatim, keeping the documents already inserted (no
rollback). -/
theorem savePolicy_drop_then_insert (env : SaveEnv) (a : AdapterState)
    (m : Model) (hf : a.filtered = false) (hd : env.deleteCollErr = none)
    (hc : env.createCollErr = none) :
    ((∀ i, i < (modelLines m).length → env.createDocErr i = none) →
      SavePolicy env a m = (.ok (), { a with coll := modelLines m }))
    ∧ (∀ (k : Nat) (e : String),
        (∀ j, j < k → env.createDocErr j = none) →
        env.createDocErr k = some e → k < (modelLines m).length →
        SavePolicy env a m = (.error e, { a with coll := (modelLines m).take k })) :=
  ⟨fun hins => savePolicy_ok_helper env a m hf hd hc hins,
   fun k e hpre hk hklen => savePolicy_err_helper env a m k e hf hd hc hpre hk hklen⟩

theorem savePolicy_drop_then_insert_witness :
    SavePolicy ⟨none, none, fun i => if i = 1 then some "request rate too large" else none⟩
        ⟨false, [⟨"9", "p", "old", "", "", "", "", ""⟩]⟩
        ⟨[("p", ⟨[["alice", "data1", "read"], ["bob", "data2", "write"]]⟩)], []⟩ =
      (.error "request rate too large",
        ⟨false, [⟨"", "p", "alice", "data1", "read", "", "", ""⟩]⟩) := by
  have h := (savePolicy_drop_then_insert
      ⟨none, none, fun i => if i = 1 then some "request rate too large" else none⟩
      ⟨false, [⟨"9", "p", "old", "", "", "", "", ""⟩]⟩
      ⟨[("p", ⟨[["alice", "data1", "read"], ["bob", "data2", "write"]]⟩)], []⟩
      rfl rfl rfl).2 1 "request rate too large"
      (by intro j hj; interval_cases j; rfl) rfl (by decide)
  exact h

/-- Claim C2 (amended): for rule tuples of length 0–6 whose values are all
non-empty, stored under non-empty policy-type tags, `SavePolicy` followed
by `LoadPolicy` yields back exactly the `(policy-type, field-values)`
pairs of the model, and the multiset of loaded pairs is invariant under
any permutation of the stored documents, i.e. independent of insertion
order. -/
theorem savePolicy_loadPolicy_roundtrip (env : SaveEnv) (a : AdapterState)
    (m : Model) (hf : a.filtered = false) (hd : env.deleteCollErr = none)
    (hc : env.createCollErr = none) (hins : ∀ i, env.createDocErr i = none)
    (hm : ∀ pr ∈ modelPairs m,
        pr.1 ≠ "" ∧ (∀ v ∈ pr.2, v ≠ "") ∧ pr.2.length ≤ 6) :
    ((LoadPolicy (SavePolicy env a m).2).1).map
        (List.map fun t => (t.2.1, t.2.2)) = some (modelPairs m)
    ∧ ∀ coll' : List CasbinRule, coll'.Perm (SavePolicy env a m).2.coll →
        ∃ l', (loadLines coll').map (List.map fun t => (t.2.1, t.2.2)) = some l'
          ∧ l'.Perm (modelPairs m) := by
  have hsave := savePolicy_ok_helper env a m hf hd hc (fun i _ => hins i)
  have hmemPType : ∀ line ∈ modelLines m, line.PType ≠ "" := by
    rw [modelLines_eq_map]
    intro line hline
    obtain ⟨pr, hpr, rfl⟩ := List.mem_map.1 hline
    simpa [savePolicyLine_PType] using (hm pr hpr).1
  have hload : loadLines (modelLines m) =
      some ((modelLines m).map fun line =>
        (line.PType.take 1, line.PType, ruleTokens line)) :=
    loadLines_eq_map (modelLines m) hmemPType
  have hpairs : ((modelLines m).map
        (fun line => (line.PType.take 1, line.PType, ruleTokens line))).map
        (fun t => (t.2.1, t.2.2)) = modelPairs m := by
    conv_lhs => rw [modelLines_eq_map]
    exact map_pair_roundtrip (modelPairs m) hm
  have hcoll : (SavePolicy env a m).2.coll = modelLines m := by rw [hsave]
  constructor
  · rw [hsave]
    show (loadLines (modelLines m)).map (List.map fun t => (t.2.1, t.2.2)) =
      some (modelPairs m)
    rw [hload, Option.map_some']
    exact congrArg some hpairs
  · intro coll' hperm
    rw [hcoll] at hperm
    have hmem' : ∀ line ∈ coll', line.PType ≠ "" := fun line hl =>
      hmemPType line (hperm.mem_iff.1 hl)
    refine ⟨(coll'.map
        (fun line => (line.PType.take 1, line.PType, ruleTokens line))).map
        (fun t => (t.2.1, t.2.2)), ?_, ?_⟩
    · rw [loadLines_eq_map coll' hmem', Option.map_some']
    · have hp1 := (hperm.map
        (fun line => (line.PType.take 1, line.PType, ruleTokens line))).map
        (fun t : String × String × List String => (t.2.1, t.2.2))
      rw [hpairs] at hp1
      exact hp1

theorem savePolicy_loadPolicy_roundtrip_witness :
    ((LoadPolicy (SavePolicy ⟨none, none, fun _ => none⟩ ⟨false, []⟩
        ⟨[("p", ⟨[["alice", "data1", "read"], ["bob", "data2", "write"]]⟩)],
         [("g", ⟨[["alice", "admin"]]⟩)]⟩).2).1).map
        (List.map fun t => (t.2.1, t.2.2)) =
      some [("p", ["alice", "data1", "read"]), ("p", ["bob", "data2", "write"]),
        ("g", ["alice", "admin"])] := by
  have h := (savePolicy_loadPolicy_roundtrip ⟨none, none, fun _ => none⟩
      ⟨false, []⟩
      ⟨[("p", ⟨[["alice", "data1", "read"], ["bob", "data2", "write"]]⟩)],
       [("g", ⟨[["alice", "admin"]]⟩)]⟩
      rfl rfl rfl (fun _ => rfl) (by decide)).1
  exact h

/-- Claim C2, as stated, is false: a tuple containing an empty string is a
tuple of length 0–6, yet load stops the token list at the first empty
field, so the pair `("p", [""])` saved to the store loads back as
`("p", [])`. -/
theorem savePolicy_loadPolicy_roundtrip_counterexample :
    ((LoadPolicy (SavePolicy ⟨none, none, fun _ => none⟩ ⟨false, []⟩
        ⟨[("p", ⟨[[""]]⟩)], []⟩).2).1).map
        (List.map fun t => (t.2.1, t.2.2)) = some [("p", [])]
    ∧ modelPairs ⟨[("p", ⟨[[""]]⟩)], []⟩ = [("p", [""])]
    ∧ ("p", ([""] : List String)) ∉ [(("p" : String), ([] : List String))] := by
  refine ⟨by decide, by decide, by decide⟩

/-- Claim C5: `RemovePolicy` builds one equality clause per supplied value
in order (`pType = t`, then `v0, v1, ...`) — the predicate `removeMatch` —
and deletes exactly the matching documents, leaving the others untouched;
if a delete fails partway, the error is returned and every later matched
document is still stored. -/
theorem removePolicy_deletes_exact_matches (env : RemoveEnv)
    (a : AdapterState) (ptype : String) (rule : List String)
    (hq : env.queryErr = none) (hlen : rule.length ≤ 6)
    (hkeys : DistinctKeys a.coll) :
    ((∀ j, j < (a.coll.filter (removeMatch ptype rule)).length →
        env.deleteErr j = none) →
      RemovePolicy env a ptype rule =
        (.ok (), { a with coll := a.coll.filter fun d => !removeMatch ptype rule d }))
    ∧ (∀ (k : Nat) (e : String),
        (∀ j, j < k → env.deleteErr j = none) → env.deleteErr k = some e →
        k < (a.coll.filter (removeMatch ptype rule)).length →
        (RemovePolicy env a ptype rule).1 = .error e
        ∧ ∀ p ∈ (a.coll.filter (removeMatch ptype rule)).drop k,
            p ∈ (RemovePolicy env a ptype rule).2.coll) := by
  have _ := hlen
  constructor
  · intro hdel
    have hloop := deleteLoop_ok env.deleteErr
      (a.coll.filter (removeMatch ptype rule)) 0 a.coll
      (fun j hj => by simpa using hdel j hj)
    rw [filter_not_matched a.coll (removeMatch ptype rule) hkeys] at hloop
    simp [RemovePolicy, hq, hloop]
  · intro k e hpre hk hklen
    have hloop := deleteLoop_err env.deleteErr e
      (a.coll.filter (removeMatch ptype rule)) k 0 a.coll
      (fun j hj => by simpa using hpre j hj) (by simpa using hk) hklen
    constructor
    · simp [RemovePolicy, hq, hloop]
    · intro p hp
      simp only [RemovePolicy, hq, hloop]
      have hpfull : p ∈ a.coll.filter (removeMatch ptype rule) :=
        List.drop_subset k _ hp
      refine List.mem_filter.2 ⟨(List.mem_filter.1 hpfull).1, ?_⟩
      rw [List.all_eq_true]
      intro q hqtake
      have hPw : (a.coll.filter (removeMatch ptype rule)).Pairwise
          fun d e => keyEq d e = false :=
        hkeys.sublist (List.filter_sublist _)
      have hsplit :
          ((a.coll.filter (removeMatch ptype rule)).take k ++
            (a.coll.filter (removeMatch ptype rule)).drop k).Pairwise
            (fun d e => keyEq d e = false) := by
        rw [List.take_append_drop]; exact hPw
      have hqp : keyEq q p = false :=
        (List.pairwise_append.1 hsplit).2.2 q hqtake p hp
      simp [keyEq_symm_false q p hqp]

theorem removePolicy_deletes_exact_matches_witness :
    RemovePolicy ⟨none, fun _ => none⟩
        ⟨false, [⟨"1", "p", "alice", "data1", "read", "", "", ""⟩,
          ⟨"2", "p", "bob", "data2", "write", "", "", ""⟩]⟩
        "p" ["alice", "data1", "read"] =
      (.ok (), ⟨false, [⟨"2", "p", "bob", "data2", "write", "", "", ""⟩]⟩) := by
  have h := (removePolicy_deletes_exact_matches ⟨none, fun _ => none⟩
      ⟨false, [⟨"1", "p", "alice", "data1", "read", "", "", ""⟩,
        ⟨"2", "p", "bob", "data2", "write", "", "", ""⟩]⟩
      "p" ["alice", "data1", "read"] rfl (by decide) (by decide)).1
      (fun j _ => rfl)
  exact h

/-- Claim C6: `RemoveFilteredPolicy` adds an equality clause for exactly
the field positions `i` in `[fieldIndex, fieldIndex + len(values))` inside
`0..5` whose value is non-empty, queries with the `pType` equality plus
those clauses, and deletes every match; in particular `fieldIndex = 1`
with values `["data1"]` matches exactly the documents with
`pType = "p"` and `v1 = "data1"`, whatever `v0` and the other fields
hold. -/
theorem removeFilteredPolicy_matches (env : RemoveEnv) (a : AdapterState)
    (ptype : String) (fieldIndex : Int) (vals : List String)
    (hq : env.queryErr = none) (hkeys : DistinctKeys a.coll)
    (hdel : ∀ j, env.deleteErr j = none) :
    RemoveFilteredPolicy env a ptype fieldIndex vals =
      (.ok (), { a with
        coll := a.coll.filter fun d => !filteredMatch ptype fieldIndex vals d })
    ∧ (∀ d : CasbinRule, filteredMatch ptype fieldIndex vals d = true ↔
        (d.PType = ptype ∧ ∀ i : Nat, i < 6 →
          fieldIndex ≤ (i : Int) → (i : Int) < fieldIndex + vals.length →
          vals.getD ((i : Int) - fieldIndex).toNat "" ≠ "" →
          d.fieldV i = vals.getD ((i : Int) - fieldIndex).toNat ""))
    ∧ (∀ d : CasbinRule,
        filteredMatch "p" 1 ["data1"] d = (d.PType == "p" && d.V1 == "data1")) := by
  refine ⟨?_, ?_, ?_⟩
  · have hloop := deleteLoop_ok env.deleteErr
      (a.coll.filter (filteredMatch ptype fieldIndex vals)) 0 a.coll
      (fun j _ => hdel _)
    rw [filter_not_matched a.coll (filteredMatch ptype fieldIndex vals) hkeys]
      at hloop
    simp [RemoveFilteredPolicy, hq, hloop]
  · intro d
    simp only [filteredMatch, Bool.and_eq_true, beq_iff_eq, List.all_eq_true]
    constructor
    · rintro ⟨h1, h2⟩
      refine ⟨h1, fun i h6 hge hlt hne => ?_⟩
      have hmem : (i, vals.getD ((i : Int) - fieldIndex).toNat "") ∈
          selector fieldIndex vals := by
        simp only [selector, List.mem_filterMap, List.mem_range]
        exact ⟨i, h6, by rw [if_pos ⟨hge, hlt⟩, if_pos hne]⟩
      simpa [beq_iff_eq] using h2 _ hmem
    · rintro ⟨h1, h2⟩
      refine ⟨h1, fun iv hiv => ?_⟩
      simp only [selector, List.mem_filterMap, List.mem_range] at hiv
      obtain ⟨i, h6, hg⟩ := hiv
      by_cases hcond : fieldIndex ≤ (i : Int) ∧ (i : Int) < fieldIndex + vals.length
      · rw [if_pos hcond] at hg
        by_cases hne : vals.getD ((i : Int) - fieldIndex).toNat "" ≠ ""
        · rw [if_pos hne] at hg
          obtain rfl := Option.some_injective _ hg
          simpa [beq_iff_eq] using h2 i h6 hcond.1 hcond.2 hne
        · rw [if_neg hne] at hg
          exact absurd hg (by simp)
      · rw [if_neg hcond] at hg
        exact absurd hg (by simp)
  · intro d
    have hsel : selector 1 ["data1"] = [(1, "data1")] := by decide
    simp [filteredMatch, hsel, CasbinRule.fieldV]

theorem removeFilteredPolicy_matches_witness :
    RemoveFilteredPolicy ⟨none, fun _ => none⟩
        ⟨false, [⟨"1", "p", "alice", "data1", "read", "", "", ""⟩,
          ⟨"2", "p", "bob", "data1", "write", "", "", ""⟩,
          ⟨"3", "p", "carol", "data2", "read", "", "", ""⟩]⟩
        "p" 1 ["data1"] =
      (.ok (), ⟨false, [⟨"3", "p", "carol", "data2", "read", "", "", ""⟩]⟩) := by
  have h := (removeFilteredPolicy_matches ⟨none, fun _ => none⟩
      ⟨false, [⟨"1", "p", "alice", "data1", "read", "", "", ""⟩,
        ⟨"2", "p", "bob", "data1", "write", "", "", ""⟩,
        ⟨"3", "p", "carol", "data2", "read", "", "", ""⟩]⟩
      "p" 1 ["data1"] rfl (by decide) (fun _ => rfl)).1
  exact h

/-- Claim C9: when no field position in `0..5` falls in
`[fieldIndex, fieldIndex + len(values))` with a non-empty value, the
derived selector is empty, the query constrains only `pType`, and every
document of the `ptype` partition is deleted. -/
theorem removeFilteredPolicy_empty_selector (env : RemoveEnv)
    (a : AdapterState) (ptype : String) (fieldIndex : Int) (vals : List String)
    (hsel : ∀ i : Nat, i < 6 → ¬(fieldIndex ≤ (i : Int) ∧
        (i : Int) < fieldIndex + vals.length ∧
        vals.getD ((i : Int) - fieldIndex).toNat "" ≠ ""))
    (hq : env.queryErr = none) (hkeys : DistinctKeys a.coll)
    (hdel : ∀ j, env.deleteErr j = none) :
    selector fieldIndex vals = []
    ∧ (∀ d : CasbinRule,
        filteredMatch ptype fieldIndex vals d = (d.PType == ptype))
    ∧ RemoveFilteredPolicy env a ptype fieldIndex vals =
        (.ok (), { a with coll := a.coll.filter fun d => !(d.PType == ptype) }) := by
  have hselnil : selector fieldIndex vals = [] := by
    rw [selector, List.filterMap_eq_nil_iff]
    intro i hi
    rw [List.mem_range] at hi
    by_cases hc : fieldIndex ≤ (i : Int) ∧ (i : Int) < fieldIndex + vals.length
    · rw [if_pos hc, if_neg (fun hne => hsel i hi ⟨hc.1, hc.2, hne⟩)]
    · rw [if_neg hc]
  have hmatch : ∀ d, filteredMatch ptype fieldIndex vals d = (d.PType == ptype) := by
    intro d
    simp [filteredMatch, hselnil]
  refine ⟨hselnil, hmatch, ?_⟩
  have hfn : filteredMatch ptype fieldIndex vals = fun d => d.PType == ptype :=
    funext hmatch
  have hloop := deleteLoop_ok env.deleteErr
    (a.coll.filter fun d => d.PType == ptype) 0 a.coll (fun j _ => hdel _)
  rw [filter_not_matched a.coll (fun d => d.PType == ptype) hkeys] at hloop
  simp [RemoveFilteredPolicy, hq, hfn, hloop]

theorem removeFilteredPolicy_empty_selector_witness :
    RemoveFilteredPolicy ⟨none, fun _ => none⟩
        ⟨false, [⟨"1", "p", "alice", "data1", "read", "", "", ""⟩,
          ⟨"2", "g", "alice", "admin", "", "", "", ""⟩]⟩
        "p" 6 ["x"] =
      (.ok (), ⟨false, [⟨"2", "g", "alice", "admin", "", "", "", ""⟩]⟩) := by
  have h := (removeFilteredPolicy_empty_selector ⟨none, fun _ => none⟩
      ⟨false, [⟨"1", "p", "alice", "data1", "read", "", "", ""⟩,
        ⟨"2", "g", "alice", "admin", "", "", "", ""⟩]⟩
      "p" 6 ["x"] (by decide) rfl (by decide) (fun _ => rfl)).2.2
  exact h

end CosmosCasbin
